import Mathlib

/-!
Verification of the js-stack-boilerplate request-routing / SSR pipeline.

This file gives a shallow embedding, in Lean 4, of the server-side code of the
repository (the Koa server in `src/_server/server.js` and the routing module
`setUpRouting`), and proves the testable properties stated in the design
specification against it.

Embedding conventions:
* JavaScript objects / JSON data (path parameters, GraphQL variables and
  payloads, Redux store state) are modelled by the inductive type `JVal`
  (null / boolean / integer / string / array / object).
* Asynchronous effectful calls (the GraphQL fetch, `bcrypt`, the user
  database) are passed in as explicit function parameters, and the requests a
  handler issues to them are returned as explicit traces, so that "the
  persistence layer is never called" is the statement that the trace is empty.
* A handler's HTTP effect (redirect vs. writing a rendered body vs. passing to
  the next middleware) is an explicit outcome value.
-/

namespace JsStack

/-- A JSON-like JavaScript value: the type of path-parameter objects, GraphQL
variables and payloads, page data, and the serialized Redux store state.
(Numbers are modelled as integers; the application data of this repository
contains only strings and objects.) -/
inductive JVal where
  | jnull
  | jbool (b : Bool)
  | jint (n : Int)
  | jstr (s : String)
  | jarr (elems : List JVal)
  | jobj (fields : List (String × JVal))

namespace Serialization

open JVal

/-! Serialization of the preloaded state

`server.js` embeds `serialize(store.getState())` into the rendered HTML
document (the `window.__PRELOADED_STATE__` inline script), and the client
parses it back on hydration.  `serialize` is the external
`serialize-javascript` package; on plain data it produces standard JSON.  We
model it as a JSON serializer over `JVal`, together with a JSON parser
modelling the client-side read-back, and prove the round-trip property the
hydration contract relies on. -/

/-- The decimal digit character for `n % 10`. -/
def digitChar : Nat → Char
  | 0 => '0' | 1 => '1' | 2 => '2' | 3 => '3' | 4 => '4'
  | 5 => '5' | 6 => '6' | 7 => '7' | 8 => '8' | _ => '9'

/-- Decimal rendering of a natural number, most significant digit first.
`fuel` only forces termination; `serNat` supplies enough of it. -/
def serNatAux : Nat → Nat → List Char
  | 0, _ => []
  | Nat.succ fuel, n =>
    if n < 10 then [digitChar n]
    else serNatAux fuel (n / 10) ++ [digitChar (n % 10)]

/-- Decimal rendering of a natural number. -/
def serNat (n : Nat) : List Char := serNatAux (n + 1) n

/-- Decimal rendering of an integer (a leading `-` for negative values). -/
def serInt (i : Int) : List Char :=
  if i < 0 then '-' :: serNat i.natAbs else serNat i.natAbs

/-- JSON string escaping: quote and backslash are escaped with a backslash,
every other character is emitted literally. -/
def escapeChar (c : Char) : List Char :=
  if c = '"' ∨ c = '\\' then ['\\', c] else [c]

/-- A JSON string literal: `"` , the escaped characters, `"`. -/
def serStrChars (s : String) : List Char :=
  '"' :: ((s.data.map escapeChar).flatten ++ ['"'])

mutual

/-- JSON rendering of a value. -/
def serVal : JVal → List Char
  | jnull => ['n', 'u', 'l', 'l']
  | jbool true => ['t', 'r', 'u', 'e']
  | jbool false => ['f', 'a', 'l', 's', 'e']
  | jint i => serInt i
  | jstr s => serStrChars s
  | jarr xs => '[' :: (serItems xs ++ [']'])
  | jobj fs => '{' :: (serFields fs ++ ['}'])

/-- Comma-separated array elements (without the surrounding brackets). -/
def serItems : List JVal → List Char
  | [] => []
  | [x] => serVal x
  | x :: y :: xs => serVal x ++ ',' :: serItems (y :: xs)

/-- Comma-separated `"key":value` object fields (without the braces). -/
def serFields : List (String × JVal) → List Char
  | [] => []
  | [(k, v)] => serStrChars k ++ ':' :: serVal v
  | (k, v) :: f :: fs => serStrChars k ++ ':' :: serVal v ++ ',' :: serFields (f :: fs)

end

mutual

/-- Fuel needed by `parseVal` to parse the serialization of a value. -/
def jsize : JVal → Nat
  | jnull => 1
  | jbool _ => 1
  | jint _ => 1
  | jstr _ => 1
  | jarr xs => jsizeItems xs + 1
  | jobj fs => jsizeFields fs + 1

/-- Fuel needed by `parseItems` on a serialized element list. -/
def jsizeItems : List JVal → Nat
  | [] => 0
  | x :: xs => jsize x + jsizeItems xs + 1

/-- Fuel needed by `parseFields` on a serialized field list. -/
def jsizeFields : List (String × JVal) → Nat
  | [] => 0
  | (_, v) :: fs => jsize v + jsizeFields fs + 1

end

/-- Reads a maximal run of decimal digits, accumulating onto `acc`; returns
the value read and the remaining input. -/
def parseNatAux (acc : Nat) : List Char → Nat × List Char
  | [] => (acc, [])
  | c :: cs =>
    if c.isDigit then parseNatAux (10 * acc + (c.toNat - 48)) cs else (acc, c :: cs)

mutual

/-- Reads the body of a JSON string literal up to the closing quote,
undoing backslash escapes; returns the characters and the remaining input. -/
def parseStrAux : List Char → Option (List Char × List Char)
  | [] => none
  | c :: cs =>
    if c = '"' then some ([], cs)
    else if c = '\\' then parseStrEsc cs
    else (parseStrAux cs).map (fun r => (c :: r.1, r.2))

/-- After a backslash: take the next character literally and continue. -/
def parseStrEsc : List Char → Option (List Char × List Char)
  | [] => none
  | d :: ds => (parseStrAux ds).map (fun r => (d :: r.1, r.2))

end

/-- Consumes the expected characters from the front of the input. -/
def stripChars : List Char → List Char → Option (List Char)
  | [], input => some input
  | _ :: _, [] => none
  | e :: es, c :: cs => if c = e then stripChars es cs else none

/-- After a leading `-`: a digit run, negated. -/
def parseNeg : List Char → Option (JVal × List Char)
  | [] => none
  | d :: ds =>
    if d.isDigit then
      let r := parseNatAux 0 (d :: ds)
      some (jint (-(r.1 : Int)), r.2)
    else none

mutual

/-- Recursive-descent JSON parser for one value; returns the value and the
remaining input.  `fuel` bounds the recursion depth. -/
def parseVal : Nat → List Char → Option (JVal × List Char)
  | 0, _ => none
  | Nat.succ _, [] => none
  | Nat.succ fuel, c :: cs =>
    if c = 'n' then (stripChars ['u', 'l', 'l'] cs).map (fun rest => (jnull, rest))
    else if c = 't' then (stripChars ['r', 'u', 'e'] cs).map (fun rest => (jbool true, rest))
    else if c = 'f' then (stripChars ['a', 'l', 's', 'e'] cs).map (fun rest => (jbool false, rest))
    else if c = '"' then (parseStrAux cs).map (fun r => (jstr (String.mk r.1), r.2))
    else if c = '-' then parseNeg cs
    else if c.isDigit then
      let r := parseNatAux 0 (c :: cs)
      some (jint (r.1 : Int), r.2)
    else if c = '[' then parseArrTail fuel cs
    else if c = '{' then parseObjTail fuel cs
    else none

/-- After `[`: either an immediate `]` (empty array) or the element list. -/
def parseArrTail : Nat → List Char → Option (JVal × List Char)
  | _, [] => none
  | fuel, d :: ds =>
    if d = ']' then some (jarr [], ds)
    else (parseItems fuel (d :: ds)).map (fun r => (jarr r.1, r.2))

/-- After `{`: either an immediate `}` (empty object) or the field list. -/
def parseObjTail : Nat → List Char → Option (JVal × List Char)
  | _, [] => none
  | fuel, d :: ds =>
    if d = '}' then some (jobj [], ds)
    else (parseFields fuel (d :: ds)).map (fun r => (jobj r.1, r.2))

/-- Parses `value (',' value)* ']'`, the tail of a nonempty array literal. -/
def parseItems : Nat → List Char → Option (List JVal × List Char)
  | 0, _ => none
  | Nat.succ fuel, input =>
    match parseVal fuel input with
    | none => none
    | some (v, rest) =>
      match rest with
      | [] => none
      | c :: more =>
        if c = ',' then (parseItems fuel more).map (fun r => (v :: r.1, r.2))
        else if c = ']' then some ([v], more)
        else none

/-- Parses `'"'key'"' ':' value (',' ...)* '}'`, the tail of a nonempty
object literal. -/
def parseFields : Nat → List Char → Option (List (String × JVal) × List Char)
  | 0, _ => none
  | Nat.succ _, [] => none
  | Nat.succ fuel, c :: cs =>
    if c = '"' then
      match parseStrAux cs with
      | none => none
      | some (k, rest1) =>
        match rest1 with
        | ':' :: rest2 =>
          match parseVal fuel rest2 with
          | none => none
          | some (v, rest3) =>
            match rest3 with
            | [] => none
            | d :: more =>
              if d = ',' then
                (parseFields fuel more).map (fun r => ((String.mk k, v) :: r.1, r.2))
              else if d = '}' then some ([(String.mk k, v)], more)
              else none
        | _ => none
    else none

end

/-- The serialized form of a value, as a string: the model of
`serialize(store.getState())` in `server.js`. -/
def serializeJs (v : JVal) : String := String.mk (serVal v)

/-- The client-side read-back of the preloaded-state blob: parse the whole
string as one JSON value. -/
def parseJs (s : String) : Option JVal :=
  match parseVal (s.data.length + 1) s.data with
  | some (v, []) => some v
  | _ => none

/-- Returns `true` iff the input does not begin with a decimal digit (so that a
maximal-munch number parse before it stops where the serializer stopped). -/
def noDigitHead : List Char → Bool
  | [] => true
  | c :: _ => !c.isDigit

end Serialization

namespace Server

/-! The request dispatcher

Two generations of the catch-all SSR handler exist in the sources: the
routing module's `setUpRouting` (with `graphqlCall`, the unauthorized
redirect and the best-effort render) and the older inline handler in
`server.js` (with `allPageRoutes.find`, the `/static` short-circuit and the
`/unauthorized` redirect).  Both are embedded below. -/

/-- A GraphQL fetch request as assembled by the server: the argument object
of `fetchGraphQL` (`_shared/api-calls`). -/
structure FetchReq where
  baseUrl : String
  query : String
  queryVariables : JVal
  cookie : String

/-- The settled result of the asynchronous GraphQL call: the payload, or a
rejection carrying the error message. -/
inductive FetchResult where
  | ok (data : JVal)
  | err (message : String)

/-- The `graphql` annotation of a route entry: the query text, the optional
path-parameter mapper, and the optional response mapper. -/
structure GraphqlSpec where
  query : String
  mapParams : Option (JVal → JVal)
  mapResp : Option (JVal → JVal)

/-- A route as consumed by the SSR handler of the routing module. -/
structure PageRoute where
  graphql : Option GraphqlSpec

/-- The result of `getMatchAndRoute`: the extracted path parameters
(`match.params`) and the selected route. -/
structure MatchResult where
  params : JVal
  route : PageRoute

/-- The function `graphqlCall` from the routing module: the GraphQL variables are
`mapParams` applied to the path parameters when the route declares a mapper,
and the raw path parameters unchanged otherwise; then the fetch is performed.
The issued request is returned alongside the result, as the observable
fetch trace. -/
def graphqlCall (fetchGraphQL : FetchReq → FetchResult) (graphql : GraphqlSpec)
    (params : JVal) (baseUrl : String) (cookie : String) : FetchResult × FetchReq :=
  let queryVariables := match graphql.mapParams with
    | some mapParams => mapParams params
    | none => params
  let req : FetchReq :=
    { baseUrl := baseUrl, query := graphql.query, queryVariables := queryVariables,
      cookie := cookie }
  (fetchGraphQL req, req)

/-- The HTTP effect of the routing module's SSR handler: a redirect (no body
is written), or a rendered page body carrying the final page data. -/
inductive SsrOutcome where
  | redirected (path : String)
  | rendered (pageData : JVal)

/-- Everything observable about one run of the SSR handler: its HTTP effect,
the errors it logged via `console.error`, and the GraphQL requests it
issued. -/
structure SsrResult where
  outcome : SsrOutcome
  loggedErrors : List String
  requests : List FetchReq

/-- The catch-all SSR handler installed by `setUpRouting` (`router.get('*')`
in the routing module).  `getMatchAndRoute` (from `_shared/routes`, not under
`src/`) and the `fetchGraphQL` transport are explicit parameters;
`hasSessionUser` models `!!ctx.session.user`, `disableSsl` the `DISABLE_SSL`
environment flag, `host` is `ctx.request.host` and `cookie` the forwarded
request cookie.  `renderPage(ctx, pageData)` is modelled by the
`SsrOutcome.rendered` outcome. -/
def ssrHandler (getMatchAndRoute : Bool → String → MatchResult)
    (fetchGraphQL : FetchReq → FetchResult) (hasSessionUser : Bool) (url : String)
    (disableSsl : Bool) (host : String) (cookie : String) : SsrResult :=
  let pageData : JVal := .jobj []
  let mr := getMatchAndRoute hasSessionUser url
  match mr.route.graphql with
  | none => { outcome := .rendered pageData, loggedErrors := [], requests := [] }
  | some graphql =>
    let baseUrl := "http" ++ (if disableSsl then "" else "s") ++ "://" ++ host
    let call := graphqlCall fetchGraphQL graphql mr.params baseUrl cookie
    match call.1 with
    | .ok data =>
      let pageData := match graphql.mapResp with
        | some mapResp => mapResp data
        | none => data
      { outcome := .rendered pageData, loggedErrors := [], requests := [call.2] }
    | .err msg =>
      if msg = "unauthorized" then
        { outcome := .redirected "/login", loggedErrors := [], requests := [call.2] }
      else
        { outcome := .rendered pageData, loggedErrors := [msg], requests := [call.2] }

/-! The `server.js` catch-all handler -/

/-- Returns `true` iff the characters of the second list are an initial segment of
the first: the model of JavaScript `String.startsWith`. -/
def charsStartWith : List Char → List Char → Bool
  | _, [] => true
  | [], _ :: _ => false
  | c :: cs, p :: ps => c = p && charsStartWith cs ps

/-- JavaScript `url.startsWith(p)` over the character lists of the strings. -/
def strStartsWith (s p : String) : Bool := charsStartWith s.data p.data

/-- The route lookup of the `server.js` catch-all handler:
`allPageRoutes.find(route => { match = matchPath(ctx.req.url, route); return match })`.
`matchPath` is the external react-router matcher, passed as a parameter and
returning the extracted parameters on success; the lookup returns the first
route it matches, together with that route's parameters. -/
def findActiveRoute {ρ : Type} (matchPath : String → ρ → Option JVal) (url : String) :
    List ρ → Option (ρ × JVal)
  | [] => none
  | route :: routes =>
    match matchPath url route with
    | some m => some (route, m)
    | none => findActiveRoute matchPath url routes

/-- A route object as consumed by the `server.js` catch-all handler: a
react-router route augmented with the optional `getVariables` mapper and the
optional GraphQL `query` text. -/
structure SjsRoute where
  getVariables : Option (JVal → JVal)
  query : Option String

/-- The HTTP effect of the `server.js` catch-all handler: pass the request to
the next middleware (`next()`), redirect, or write the rendered document for
the given store state. -/
inductive SjsOutcome where
  | passedToNext
  | redirected (path : String)
  | rendered (state : JVal)

/-- The function `getGeneralData` from `server.js`; the request context is unused by the
source (`ctx => ({ username: 'Sven' })`). -/
def getGeneralData : JVal := .jobj [("username", .jstr "Sven")]

/-- The Redux store state assembled for rendering in `server.js`:
`createStore(() => ({ page: pageData, general: getGeneralData(ctx) }))`. -/
def storeState (pageData general : JVal) : JVal :=
  .jobj [("page", pageData), ("general", general)]

/-- The `window.__PRELOADED_STATE__` blob inlined into the rendered HTML
document: `serialize(store.getState())`. -/
def preloadedStateBlob (state : JVal) : String := Serialization.serializeJs state

/-- The `server.js` catch-all SSR handler (`router.get('*')`): looks up the
active route, short-circuits `/static` paths to the next middleware, computes
the GraphQL variables (`activeRoute.getVariables && activeRoute.getVariables(match.params)`,
i.e. `undefined` when no mapper is declared), fetches page data when the
route declares a query — redirecting to `/unauthorized` on any fetch
failure — and otherwise writes the rendered document for the assembled store
state (also when no route matched, in which case `activeRoute` defaults to
`{}` and the page data stays empty). -/
def sjsCatchAll (matchPath : String → SjsRoute → Option JVal)
    (allPageRoutes : List SjsRoute)
    (fetchGraphQL : String → Option JVal → FetchResult) (url : String) : SjsOutcome :=
  let found := findActiveRoute matchPath url allPageRoutes
  if strStartsWith url "/static" then .passedToNext
  else
    match found with
    | none => .rendered (storeState (.jobj []) getGeneralData)
    | some (activeRoute, m) =>
      let queryVariables : Option JVal := activeRoute.getVariables.map (fun f => f m)
      match activeRoute.query with
      | none => .rendered (storeState (.jobj []) getGeneralData)
      | some query =>
        match fetchGraphQL query queryVariables with
        | .ok pageData => .rendered (storeState pageData getGeneralData)
        | .err _ => .redirected "/unauthorized"

/-! The auth subrouter (`POST /signup`, `POST /login` in `server.js`) -/

/-- A stored user record (`user/user-db`): username and bcrypt hash. -/
structure User where
  username : String
  passwordHash : String

/-- The data handed to `renderPage(ctx, ...)` by the auth handlers: the
submitted body fields pre-filled and an inline error message. -/
structure FormRender where
  prefillUsername : String
  prefillPassword : String
  errorMessage : String

/-- The HTTP effect of an auth handler: a 302 redirect, or a 200 re-render of
the page with the given form data.  The re-render models `renderPage`
(`_server/render-page`, not under `src/`), which per the spec writes a 200
page body containing the given data. -/
inductive AuthOutcome where
  | redirect (path : String)
  | renderForm (form : FormRender)

/-- The configured landing path after signup/login.
Modelled from the spec: `notesPageConfig.route.path` (`note/note-config`) is
not under `src/`; the spec calls it the configured authenticated landing
route.  Its concrete value is irrelevant to the theorems below. -/
def notesPagePath : String := "/notes"

/-- Observable result of `POST /signup`: the HTTP effect, the passwords fed
to `bcrypt.hash`, and the user records handed to `createUser`. -/
structure SignupResult where
  outcome : AuthOutcome
  hashCalls : List String
  created : List User

/-- The `POST /signup` handler of `server.js`.  A missing (`undefined`) and
an empty (`''`) body field are modelled alike as `""`: these are exactly the
strings on which the source's test `!username || username === ''` succeeds.
`hash` models `bcrypt.hash(password, 12)`. -/
def signupHandler (hash : String → String) (username password : String) : SignupResult :=
  if username = "" ∨ password = "" then
    { outcome := .renderForm
        { prefillUsername := username, prefillPassword := password,
          errorMessage := "Please enter a username and a password." },
      hashCalls := [], created := [] }
  else
    let passwordHash := hash password
    { outcome := .redirect notesPagePath,
      hashCalls := [password],
      created := [{ username := username, passwordHash := passwordHash }] }

/-- Observable result of `POST /login`: the HTTP effect, the session's user
field after the request, and the `(password, storedHash)` pairs fed to
`bcrypt.compare`. -/
structure LoginResult where
  outcome : AuthOutcome
  sessionUser : Option User
  compareCalls : List (String × String)

/-- The `POST /login` handler of `server.js`.  `findUserByUsername` (the
persistence lookup of `user/user-db`) and `compare` (`bcrypt.compare`) are
parameters; `sessionUser` is the session's user field before the request.
JavaScript's `user && (await bcrypt.compare(...))` short-circuits, so no
comparison is performed when the lookup misses. -/
def loginHandler (findUserByUsername : String → Option User)
    (compare : String → String → Bool) (username password : String)
    (sessionUser : Option User) : LoginResult :=
  match findUserByUsername username with
  | none =>
    { outcome := .renderForm
        { prefillUsername := username, prefillPassword := password,
          errorMessage := "Incorrect username or password." },
      sessionUser := sessionUser, compareCalls := [] }
  | some user =>
    if compare password user.passwordHash then
      { outcome := .redirect notesPagePath,
        sessionUser := some user,
        compareCalls := [(password, user.passwordHash)] }
    else
      { outcome := .renderForm
          { prefillUsername := username, prefillPassword := password,
            errorMessage := "Incorrect username or password." },
        sessionUser := sessionUser, compareCalls := [(password, user.passwordHash)] }

end Server

/-! Concrete instances used by witnesses and counterexamples -/

/-- A matcher for witnesses: a route is a bare path pattern matching only the
exact URL, with an empty parameter object. -/
def exactMatcher (url : String) (pat : String) : Option JVal :=
  if pat = url then some (JVal.jobj []) else none

/-- A matcher that matches nothing. -/
def matchNone : String → Server.SjsRoute → Option JVal := fun _ _ => none

/-- A `server.js`-style fetch stub (never consulted in the proofs using it). -/
def fetchStub : String → Option JVal → Server.FetchResult :=
  fun _ _ => Server.FetchResult.err "unused"

/-- A route whose GraphQL annotation has no mappers. -/
def gSpecPlain : Server.GraphqlSpec :=
  { query := "query getNotes", mapParams := none, mapResp := none }

/-- A parameter mapper stub. -/
def mapParamsStub : JVal → JVal := fun _ => JVal.jobj [("id", JVal.jstr "42")]

/-- A response mapper stub. -/
def mapRespStub : JVal → JVal := fun d => JVal.jobj [("notes", d)]

/-- A route whose GraphQL annotation declares a parameter mapper. -/
def gSpecMapped : Server.GraphqlSpec :=
  { query := "query getNote", mapParams := some mapParamsStub, mapResp := none }

/-- A route whose GraphQL annotation declares a response mapper. -/
def gSpecResp : Server.GraphqlSpec :=
  { query := "query getNotes", mapParams := none, mapResp := some mapRespStub }

/-- A route-table stub always selecting `gSpecPlain`. -/
def gmrPlain : Bool → String → Server.MatchResult :=
  fun _ _ => { params := JVal.jobj [], route := { graphql := some gSpecPlain } }

/-- A route-table stub always selecting `gSpecMapped`, with path parameters. -/
def gmrMapped : Bool → String → Server.MatchResult :=
  fun _ _ =>
    { params := JVal.jobj [("noteId", JVal.jstr "7")], route := { graphql := some gSpecMapped } }

/-- A route-table stub always selecting `gSpecResp`. -/
def gmrResp : Bool → String → Server.MatchResult :=
  fun _ _ => { params := JVal.jobj [], route := { graphql := some gSpecResp } }

/-- A fetch transport whose call always rejects with the sentinel. -/
def fetchUnauthorized : Server.FetchReq → Server.FetchResult :=
  fun _ => Server.FetchResult.err "unauthorized"

/-- A fetch transport whose call always rejects with a generic error. -/
def fetchBoom : Server.FetchReq → Server.FetchResult :=
  fun _ => Server.FetchResult.err "boom"

/-- A fetch transport whose call always resolves with a fixed payload. -/
def fetchOk : Server.FetchReq → Server.FetchResult :=
  fun _ => Server.FetchResult.ok (JVal.jarr [JVal.jstr "Medor"])

/-- A stored user for the login witnesses. -/
def userAlice : Server.User := { username := "alice", passwordHash := "h1" }

/-- A user-database stub containing exactly `userAlice`. -/
def findUserStub : String → Option Server.User :=
  fun u => if u = "alice" then some userAlice else none

/-- A `bcrypt.compare` stub accepting exactly `("pw", "h1")`. -/
def compareStub : String → String → Bool :=
  fun p h => p = "pw" && h = "h1"

/-- A `bcrypt.hash` stub. -/
def hashStub : String → String := fun p => "hashed:" ++ p

namespace Serialization

open JVal

/-! Round-trip lemmas: numbers -/

theorem serNatAux_congr : ∀ f1 f2 n, n < f1 → n < f2 → serNatAux f1 n = serNatAux f2 n := by
  intro f1
  induction f1 with
  | zero => intro f2 n h1 _; omega
  | succ f1 ih =>
    intro f2 n h1 h2
    cases f2 with
    | zero => omega
    | succ f2 =>
      simp only [serNatAux]
      by_cases h10 : n < 10
      · simp [h10]
      · have hdiv : n / 10 < n := Nat.div_lt_self (by omega) (by omega)
        simp only [h10, if_false]
        rw [ih f2 (n / 10) (by omega) (by omega)]

theorem serNat_eq (n : Nat) :
    serNat n = if n < 10 then [digitChar n] else serNat (n / 10) ++ [digitChar (n % 10)] := by
  by_cases h10 : n < 10
  · simp [serNat, serNatAux, h10]
  · have hdiv : n / 10 < n := Nat.div_lt_self (by omega) (by omega)
    simp only [h10, if_false]
    show serNatAux (n + 1) n = _
    rw [show serNatAux (n + 1) n = serNatAux n (n / 10) ++ [digitChar (n % 10)] by
      simp [serNatAux, h10]]
    rw [serNatAux_congr n (n / 10 + 1) (n / 10) (by omega) (by omega)]
    rfl

theorem digitChar_isDigit {k : Nat} (h : k < 10) : (digitChar k).isDigit = true := by
  interval_cases k <;> decide

theorem digitChar_toNat {k : Nat} (h : k < 10) : (digitChar k).toNat = 48 + k := by
  interval_cases k <;> decide

theorem serNat_head (n : Nat) : ∃ d ds, serNat n = d :: ds ∧ d.isDigit = true := by
  induction n using Nat.strong_induction_on with
  | _ n ih =>
    rw [serNat_eq]
    by_cases h10 : n < 10
    · exact ⟨digitChar n, [], by simp [h10], digitChar_isDigit h10⟩
    · have hdiv : n / 10 < n := Nat.div_lt_self (by omega) (by omega)
      obtain ⟨d, ds, hser, hd⟩ := ih (n / 10) hdiv
      exact ⟨d, ds ++ [digitChar (n % 10)], by simp [h10, hser], hd⟩


theorem parseNatAux_stop (acc : Nat) (t : List Char) (h : noDigitHead t = true) :
    parseNatAux acc t = (acc, t) := by
  cases t with
  | nil => rfl
  | cons c cs =>
    simp only [noDigitHead, Bool.not_eq_true'] at h
    simp [parseNatAux, h]

theorem parseNatAux_serNat (n : Nat) : ∀ acc t,
    parseNatAux acc (serNat n ++ t) = parseNatAux (acc * 10 ^ (serNat n).length + n) t := by
  induction n using Nat.strong_induction_on with
  | _ n ih =>
    intro acc t
    rw [serNat_eq]
    by_cases h10 : n < 10
    · simp only [h10, if_true, List.singleton_append, List.length_singleton]
      rw [parseNatAux, if_pos (digitChar_isDigit h10), digitChar_toNat h10]
      congr 1
      omega
    · have hdiv : n / 10 < n := Nat.div_lt_self (by omega) (by omega)
      have hmod : n % 10 < 10 := Nat.mod_lt _ (by omega)
      simp only [h10, if_false, List.append_assoc, List.singleton_append, List.length_append,
        List.length_singleton]
      rw [ih (n / 10) hdiv]
      rw [parseNatAux, if_pos (digitChar_isDigit hmod), digitChar_toNat hmod]
      congr 1
      have hpow : 10 ^ ((serNat (n / 10)).length + 1) = 10 ^ (serNat (n / 10)).length * 10 :=
        pow_succ 10 _
      have hdm : 10 * (n / 10) + n % 10 = n := Nat.div_add_mod n 10
      ring_nf
      omega

theorem parseNat_serNat (n : Nat) (t : List Char) (h : noDigitHead t = true) :
    parseNatAux 0 (serNat n ++ t) = (n, t) := by
  rw [parseNatAux_serNat, Nat.zero_mul, Nat.zero_add, parseNatAux_stop _ _ h]

/-! Round-trip lemmas: strings -/

theorem parseStrAux_escape (cs : List Char) : ∀ t,
    parseStrAux ((cs.map escapeChar).flatten ++ '"' :: t) = some (cs, t) := by
  induction cs with
  | nil => intro t; simp [parseStrAux]
  | cons c cs ih =>
    intro t
    by_cases hc : c = '"' ∨ c = '\\'
    · have hesc : escapeChar c = ['\\', c] := by simp [escapeChar, hc]
      simp only [List.map_cons, List.flatten_cons, hesc, List.cons_append, List.append_assoc]
      rw [parseStrAux, if_neg (by decide), if_pos rfl, parseStrEsc, List.nil_append, ih]
      rfl
    · push_neg at hc
      have hesc : escapeChar c = [c] := by simp [escapeChar, hc.1, hc.2]
      simp only [List.map_cons, List.flatten_cons, hesc, List.cons_append, List.append_assoc,
        List.singleton_append]
      rw [parseStrAux, if_neg hc.1, if_neg hc.2, List.nil_append, ih]
      rfl

/-! Helper facts for the main round-trip induction -/

theorem isDigit_ne {c : Char} (x : Char) (hc : c.isDigit = true) (hx : x.isDigit = false) :
    c ≠ x := by
  intro h
  subst h
  rw [hc] at hx
  cases hx

theorem jsize_pos (v : JVal) : 1 ≤ jsize v := by
  cases v <;> simp [jsize]

theorem jsizeItems_cons (x : JVal) (xs : List JVal) :
    jsizeItems (x :: xs) = jsize x + jsizeItems xs + 1 := rfl

theorem jsizeFields_cons (k : String) (v : JVal) (fs : List (String × JVal)) :
    jsizeFields ((k, v) :: fs) = jsize v + jsizeFields fs + 1 := rfl

mutual

theorem jsize_le_serVal (v : JVal) : jsize v ≤ (serVal v).length := by
  cases v with
  | jnull => simp [jsize, serVal]
  | jbool b => cases b <;> simp [jsize, serVal]
  | jint i =>
    have h : 1 ≤ (serInt i).length := by
      rw [serInt]
      by_cases hi : i < 0
      · simp [hi]
      · simp only [hi, if_false]
        obtain ⟨d, ds, hd, _⟩ := serNat_head i.natAbs
        simp [hd]
    simpa [jsize, serVal] using h
  | jstr s => simp [jsize, serVal, serStrChars]
  | jarr xs =>
    have h := jsizeItems_le_serItems xs
    simp only [jsize, serVal, List.length_cons, List.length_append, List.length_singleton]
    omega
  | jobj fs =>
    have h := jsizeFields_le_serFields fs
    simp only [jsize, serVal, List.length_cons, List.length_append, List.length_singleton]
    omega

theorem jsizeItems_le_serItems (xs : List JVal) : jsizeItems xs ≤ (serItems xs).length + 1 := by
  cases xs with
  | nil => simp [jsizeItems, serItems]
  | cons x ys =>
    cases ys with
    | nil =>
      have h := jsize_le_serVal x
      rw [jsizeItems_cons]
      simp only [jsizeItems, serItems]
      omega
    | cons y zs =>
      have h1 := jsize_le_serVal x
      have h2 := jsizeItems_le_serItems (y :: zs)
      rw [jsizeItems_cons]
      simp only [serItems, List.length_append, List.length_cons]
      omega

theorem jsizeFields_le_serFields (fs : List (String × JVal)) :
    jsizeFields fs ≤ (serFields fs).length + 1 := by
  cases fs with
  | nil => simp [jsizeFields, serFields]
  | cons f gs =>
    obtain ⟨k, v⟩ := f
    cases gs with
    | nil =>
      have h := jsize_le_serVal v
      rw [jsizeFields_cons]
      simp only [jsizeFields, serFields, List.length_append, List.length_cons]
      omega
    | cons g hs =>
      have h1 := jsize_le_serVal v
      have h2 := jsizeFields_le_serFields (g :: hs)
      rw [jsizeFields_cons]
      simp only [serFields, List.length_append, List.length_cons]
      omega

end

theorem serVal_head (v : JVal) : ∃ c t, serVal v = c :: t ∧ c ≠ ']' ∧ c ≠ '}' := by
  cases v with
  | jnull => exact ⟨'n', _, rfl, by decide, by decide⟩
  | jbool b =>
    cases b with
    | false => exact ⟨'f', _, rfl, by decide, by decide⟩
    | true => exact ⟨'t', _, rfl, by decide, by decide⟩
  | jint i =>
    rcases i with n | n
    · have h0 : serVal (jint (Int.ofNat n)) = serNat n := by
        show serInt (Int.ofNat n) = serNat n
        simp only [Int.ofNat_eq_natCast, serInt]
        rw [if_neg (by omega), Int.natAbs_ofNat]
      obtain ⟨d, ds, hd, hdig⟩ := serNat_head n
      exact ⟨d, ds, by rw [h0, hd],
        isDigit_ne _ hdig (by decide), isDigit_ne _ hdig (by decide)⟩
    · have h0 : serVal (jint (Int.negSucc n)) = '-' :: serNat (n + 1) := by
        show serInt (Int.negSucc n) = _
        rw [serInt, if_pos (Int.negSucc_lt_zero n), Int.natAbs_negSucc]
      exact ⟨'-', _, h0, by decide, by decide⟩
  | jstr s => exact ⟨'"', _, rfl, by decide, by decide⟩
  | jarr xs => exact ⟨'[', _, rfl, by decide, by decide⟩
  | jobj fs => exact ⟨'{', _, rfl, by decide, by decide⟩

theorem serItems_head (x : JVal) (xs : List JVal) :
    ∃ c cs, serItems (x :: xs) = c :: cs ∧ c ≠ ']' := by
  obtain ⟨c, t, hx, hc, _⟩ := serVal_head x
  cases xs with
  | nil => exact ⟨c, t, by rw [serItems, hx], hc⟩
  | cons y ys =>
    exact ⟨c, t ++ ',' :: serItems (y :: ys), by rw [serItems, hx, List.cons_append], hc⟩

theorem serFields_head (k : String) (v : JVal) (fs : List (String × JVal)) :
    ∃ rest, serFields ((k, v) :: fs) = '"' :: rest := by
  cases fs with
  | nil => exact ⟨_, by rw [serFields, serStrChars, List.cons_append]⟩
  | cons g hs => exact ⟨_, by rw [serFields, serStrChars, List.cons_append, List.cons_append]⟩

theorem noDigitHead_cons (c : Char) (t : List Char) (h : c.isDigit = false) :
    noDigitHead (c :: t) = true := by
  simp [noDigitHead, h]

/-! The round-trip theorem: parsing a serialized value recovers it -/

mutual

theorem parseVal_serVal (fuel : Nat) (v : JVal) (t : List Char)
    (hf : jsize v ≤ fuel) (ht : noDigitHead t = true) :
    parseVal fuel (serVal v ++ t) = some (v, t) := by
  cases fuel with
  | zero => exact absurd hf (by have := jsize_pos v; omega)
  | succ fuel =>
    cases v with
    | jnull =>
      rw [serVal]
      simp only [List.cons_append, List.nil_append]
      rw [parseVal, if_pos rfl]
      rfl
    | jbool b =>
      cases b with
      | true =>
        rw [serVal]
        simp only [List.cons_append, List.nil_append]
        rw [parseVal, if_neg (by decide), if_pos rfl]
        rfl
      | false =>
        rw [serVal]
        simp only [List.cons_append, List.nil_append]
        rw [parseVal, if_neg (by decide), if_neg (by decide), if_pos rfl]
        rfl
    | jint i =>
      rcases i with n | n
      · have h0 : serVal (jint (Int.ofNat n)) = serNat n := by
          show serInt (Int.ofNat n) = serNat n
          simp only [Int.ofNat_eq_natCast, serInt]
          rw [if_neg (by omega), Int.natAbs_ofNat]
        rw [h0]
        obtain ⟨d, ds, hd, hdig⟩ := serNat_head n
        rw [hd, List.cons_append, parseVal,
          if_neg (isDigit_ne _ hdig (by decide)), if_neg (isDigit_ne _ hdig (by decide)),
          if_neg (isDigit_ne _ hdig (by decide)), if_neg (isDigit_ne _ hdig (by decide)),
          if_neg (isDigit_ne _ hdig (by decide)), if_pos hdig]
        rw [show d :: (ds ++ t) = serNat n ++ t by rw [hd, List.cons_append]]
        rw [parseNat_serNat n t ht]
        rfl
      · have h0 : serVal (jint (Int.negSucc n)) = '-' :: serNat (n + 1) := by
          show serInt (Int.negSucc n) = _
          rw [serInt, if_pos (Int.negSucc_lt_zero n), Int.natAbs_negSucc]
        rw [h0, List.cons_append, parseVal, if_neg (by decide), if_neg (by decide),
          if_neg (by decide), if_neg (by decide), if_pos rfl]
        obtain ⟨d, ds, hd, hdig⟩ := serNat_head (n + 1)
        rw [hd, List.cons_append, parseNeg, if_pos hdig]
        rw [show d :: (ds ++ t) = serNat (n + 1) ++ t by rw [hd, List.cons_append]]
        rw [parseNat_serNat (n + 1) t ht]
        have hval : (-(((n : Nat) + 1 : Nat) : Int)) = Int.negSucc n := by
          rw [Int.negSucc_eq]
          push_cast
          ring
        show some (jint (-(((n : Nat) + 1 : Nat) : Int)), t) = some (jint (Int.negSucc n), t)
        rw [hval]
    | jstr s =>
      have h0 : serVal (jstr s) ++ t
          = '"' :: ((s.data.map escapeChar).flatten ++ '"' :: t) := by
        show serStrChars s ++ t = _
        simp [serStrChars, List.append_assoc]
      rw [h0, parseVal, if_neg (by decide), if_neg (by decide), if_neg (by decide), if_pos rfl,
        parseStrAux_escape]
      rfl
    | jarr xs =>
      cases xs with
      | nil =>
        rw [serVal, serItems]
        simp only [List.nil_append, List.cons_append, List.singleton_append]
        rw [parseVal, if_neg (by decide), if_neg (by decide), if_neg (by decide),
          if_neg (by decide), if_neg (by decide), if_neg (by decide), if_pos rfl]
        rw [parseArrTail, if_pos rfl]
      | cons x ys =>
        have hsz : jsizeItems (x :: ys) ≤ fuel := by
          have e : jsize (jarr (x :: ys)) = jsizeItems (x :: ys) + 1 := rfl
          omega
        have h0 : serVal (jarr (x :: ys)) ++ t
            = '[' :: (serItems (x :: ys) ++ ']' :: t) := by
          show ('[' :: (serItems (x :: ys) ++ [']'])) ++ t = _
          simp [List.append_assoc]
        obtain ⟨c, cs, hc, hcne⟩ := serItems_head x ys
        rw [h0, parseVal, if_neg (by decide), if_neg (by decide), if_neg (by decide),
          if_neg (by decide), if_neg (by decide), if_neg (by decide), if_pos rfl]
        rw [hc, List.cons_append, parseArrTail, if_neg hcne]
        rw [show c :: (cs ++ ']' :: t) = serItems (x :: ys) ++ ']' :: t by
          rw [hc, List.cons_append]]
        rw [parseItems_serItems fuel x ys t hsz]
        rfl
    | jobj fs =>
      cases fs with
      | nil =>
        rw [serVal, serFields]
        simp only [List.nil_append, List.cons_append, List.singleton_append]
        rw [parseVal, if_neg (by decide), if_neg (by decide), if_neg (by decide),
          if_neg (by decide), if_neg (by decide), if_neg (by decide), if_neg (by decide),
          if_pos rfl]
        rw [parseObjTail, if_pos rfl]
      | cons f gs =>
        obtain ⟨k, v⟩ := f
        have hsz : jsizeFields ((k, v) :: gs) ≤ fuel := by
          have e : jsize (jobj ((k, v) :: gs)) = jsizeFields ((k, v) :: gs) + 1 := rfl
          omega
        have h0 : serVal (jobj ((k, v) :: gs)) ++ t
            = '{' :: (serFields ((k, v) :: gs) ++ '}' :: t) := by
          show ('{' :: (serFields ((k, v) :: gs) ++ ['}'])) ++ t = _
          simp [List.append_assoc]
        obtain ⟨rest, hr⟩ := serFields_head k v gs
        rw [h0, parseVal, if_neg (by decide), if_neg (by decide), if_neg (by decide),
          if_neg (by decide), if_neg (by decide), if_neg (by decide), if_neg (by decide),
          if_pos rfl]
        rw [hr, List.cons_append, parseObjTail, if_neg (by decide)]
        rw [show '"' :: (rest ++ '}' :: t) = serFields ((k, v) :: gs) ++ '}' :: t by
          rw [hr, List.cons_append]]
        rw [parseFields_serFields fuel k v gs t hsz]
        rfl

theorem parseItems_serItems (fuel : Nat) (x : JVal) (xs : List JVal) (t : List Char)
    (hf : jsizeItems (x :: xs) ≤ fuel) :
    parseItems fuel (serItems (x :: xs) ++ ']' :: t) = some (x :: xs, t) := by
  cases fuel with
  | zero => exact absurd hf (by rw [jsizeItems_cons]; omega)
  | succ fuel =>
    cases xs with
    | nil =>
      have hx : jsize x ≤ fuel := by
        rw [jsizeItems_cons] at hf
        have e : jsizeItems ([] : List JVal) = 0 := rfl
        omega
      rw [show serItems [x] = serVal x from rfl, parseItems,
        parseVal_serVal fuel x (']' :: t) hx (noDigitHead_cons _ _ (by decide))]
      rfl
    | cons y ys =>
      have e1 : jsizeItems (x :: y :: ys) = jsize x + jsizeItems (y :: ys) + 1 := rfl
      have e2 : jsizeItems (y :: ys) = jsize y + jsizeItems ys + 1 := rfl
      have p1 := jsize_pos x
      have hx : jsize x ≤ fuel := by omega
      have hy : jsizeItems (y :: ys) ≤ fuel := by omega
      have h0 : serItems (x :: y :: ys) ++ ']' :: t
          = serVal x ++ (',' :: (serItems (y :: ys) ++ ']' :: t)) := by
        show (serVal x ++ ',' :: serItems (y :: ys)) ++ ']' :: t = _
        simp [List.append_assoc]
      rw [h0, parseItems,
        parseVal_serVal fuel x _ hx (noDigitHead_cons _ _ (by decide))]
      show (parseItems fuel (serItems (y :: ys) ++ ']' :: t)).map
          (fun r => (x :: r.1, r.2)) = some (x :: y :: ys, t)
      rw [parseItems_serItems fuel y ys t hy]
      rfl

theorem parseFields_serFields (fuel : Nat) (k : String) (v : JVal)
    (fs : List (String × JVal)) (t : List Char)
    (hf : jsizeFields ((k, v) :: fs) ≤ fuel) :
    parseFields fuel (serFields ((k, v) :: fs) ++ '}' :: t) = some ((k, v) :: fs, t) := by
  cases fuel with
  | zero => exact absurd hf (by rw [jsizeFields_cons]; omega)
  | succ fuel =>
    cases fs with
    | nil =>
      have hv : jsize v ≤ fuel := by
        rw [jsizeFields_cons] at hf
        have e : jsizeFields ([] : List (String × JVal)) = 0 := rfl
        omega
      have h0 : serFields [(k, v)] ++ '}' :: t
          = '"' :: ((k.data.map escapeChar).flatten ++ '"' :: (':' :: (serVal v ++ '}' :: t))) := by
        show (serStrChars k ++ ':' :: serVal v) ++ '}' :: t = _
        simp [serStrChars, List.append_assoc]
      rw [h0, parseFields, if_pos rfl, parseStrAux_escape]
      show (match parseVal fuel (serVal v ++ '}' :: t) with
        | none => none
        | some (w, rest3) =>
          match rest3 with
          | [] => none
          | d :: more =>
            if d = ',' then
              (parseFields fuel more).map (fun r => ((String.mk k.data, w) :: r.1, r.2))
            else if d = '}' then some ([(String.mk k.data, w)], more)
            else none) = some ([(k, v)], t)
      rw [parseVal_serVal fuel v _ hv (noDigitHead_cons _ _ (by decide))]
      rfl
    | cons g gs =>
      obtain ⟨k2, v2⟩ := g
      have e1 : jsizeFields ((k, v) :: (k2, v2) :: gs)
          = jsize v + jsizeFields ((k2, v2) :: gs) + 1 := rfl
      have e2 : jsizeFields ((k2, v2) :: gs) = jsize v2 + jsizeFields gs + 1 := rfl
      have p1 := jsize_pos v
      have hv : jsize v ≤ fuel := by omega
      have hg : jsizeFields ((k2, v2) :: gs) ≤ fuel := by omega
      have h0 : serFields ((k, v) :: (k2, v2) :: gs) ++ '}' :: t
          = '"' :: ((k.data.map escapeChar).flatten ++ '"' ::
              (':' :: (serVal v ++ ',' :: (serFields ((k2, v2) :: gs) ++ '}' :: t)))) := by
        rw [serFields]
        simp [serStrChars, List.append_assoc]
      rw [h0, parseFields, if_pos rfl, parseStrAux_escape]
      show (match parseVal fuel (serVal v ++ ',' :: (serFields ((k2, v2) :: gs) ++ '}' :: t)) with
        | none => none
        | some (w, rest3) =>
          match rest3 with
          | [] => none
          | d :: more =>
            if d = ',' then
              (parseFields fuel more).map (fun r => ((String.mk k.data, w) :: r.1, r.2))
            else if d = '}' then some ([(String.mk k.data, w)], more)
            else none) = some ((k, v) :: (k2, v2) :: gs, t)
      rw [parseVal_serVal fuel v _ hv (noDigitHead_cons _ _ (by decide))]
      show (parseFields fuel (serFields ((k2, v2) :: gs) ++ '}' :: t)).map
          (fun r => ((String.mk k.data, v) :: r.1, r.2)) = some ((k, v) :: (k2, v2) :: gs, t)
      rw [parseFields_serFields fuel k2 v2 gs t hg]
      rfl

end

/-- Parsing the serialization of any value yields the value back. -/
theorem parseJs_serializeJs (v : JVal) : parseJs (serializeJs v) = some v := by
  have hlen : jsize v ≤ (serVal v).length + 1 := le_trans (jsize_le_serVal v) (by omega)
  have h := parseVal_serVal ((serVal v).length + 1) v [] hlen rfl
  rw [List.append_nil] at h
  rw [parseJs, show (serializeJs v).data = serVal v from rfl, h]

end Serialization

/-! The claims -/

/-- C1: For every request whose matched route declares a GraphQL query,
if the GraphQL call fails with the sentinel unauthorized error (message
`"unauthorized"`), the Dispatcher's outcome is a redirect to `/login`: being
a `redirected` outcome (not `rendered`), no page body is written and no
render occurs after this transition. -/
theorem unauthorized_redirects_to_login
    (getMatchAndRoute : Bool → String → Server.MatchResult)
    (fetchGraphQL : Server.FetchReq → Server.FetchResult)
    (hasSessionUser : Bool) (url : String) (disableSsl : Bool) (host cookie : String)
    (g : Server.GraphqlSpec)
    (hg : (getMatchAndRoute hasSessionUser url).route.graphql = some g)
    (hf : (Server.graphqlCall fetchGraphQL g (getMatchAndRoute hasSessionUser url).params
        ("http" ++ (if disableSsl then "" else "s") ++ "://" ++ host) cookie).1
      = Server.FetchResult.err "unauthorized") :
    (Server.ssrHandler getMatchAndRoute fetchGraphQL hasSessionUser url
        disableSsl host cookie).outcome
      = Server.SsrOutcome.redirected "/login" := by
  simp only [Server.ssrHandler, hg, hf]
  rfl

/-- C1 witness: a concrete route with a GraphQL query and a fetch that
rejects with the sentinel; the handler redirects to `/login`. -/
theorem unauthorized_redirects_to_login_witness :
    (Server.ssrHandler gmrPlain fetchUnauthorized true "/notes" false "example.org"
        "koa:sess=1").outcome
      = Server.SsrOutcome.redirected "/login" :=
  unauthorized_redirects_to_login gmrPlain fetchUnauthorized true "/notes" false "example.org"
    "koa:sess=1" gSpecPlain rfl rfl

/-- C2: For every request whose matched route declares a GraphQL query,
if the GraphQL call fails with any error other than the unauthorized
sentinel, the Dispatcher logs the error message (our only observation of the
error — the outcome value carries none of it, so nothing is surfaced to the
client) and still renders a page body using the page data set before the
fetch, the empty object; no error page and no redirect is produced. -/
theorem failed_fetch_logs_and_renders_default
    (getMatchAndRoute : Bool → String → Server.MatchResult)
    (fetchGraphQL : Server.FetchReq → Server.FetchResult)
    (hasSessionUser : Bool) (url : String) (disableSsl : Bool) (host cookie : String)
    (g : Server.GraphqlSpec) (msg : String)
    (hg : (getMatchAndRoute hasSessionUser url).route.graphql = some g)
    (hmsg : msg ≠ "unauthorized")
    (hf : (Server.graphqlCall fetchGraphQL g (getMatchAndRoute hasSessionUser url).params
        ("http" ++ (if disableSsl then "" else "s") ++ "://" ++ host) cookie).1
      = Server.FetchResult.err msg) :
    (Server.ssrHandler getMatchAndRoute fetchGraphQL hasSessionUser url
        disableSsl host cookie).outcome
      = Server.SsrOutcome.rendered (JVal.jobj [])
    ∧ (Server.ssrHandler getMatchAndRoute fetchGraphQL hasSessionUser url
        disableSsl host cookie).loggedErrors = [msg] := by
  constructor
  · simp only [Server.ssrHandler, hg, hf]
    rw [if_neg hmsg]
  · simp only [Server.ssrHandler, hg, hf]
    rw [if_neg hmsg]

/-- C2 witness: a fetch failing with `"boom"`; the handler still renders
the empty page data and logs `"boom"`. -/
theorem failed_fetch_logs_and_renders_default_witness :
    (Server.ssrHandler gmrPlain fetchBoom true "/notes" false "example.org"
        "koa:sess=1").outcome
      = Server.SsrOutcome.rendered (JVal.jobj [])
    ∧ (Server.ssrHandler gmrPlain fetchBoom true "/notes" false "example.org"
        "koa:sess=1").loggedErrors = ["boom"] :=
  failed_fetch_logs_and_renders_default gmrPlain fetchBoom true "/notes" false "example.org"
    "koa:sess=1" gSpecPlain "boom" rfl (by decide) rfl

/-- C3 counterexample: The claim says an unmatched, non-static request
falls through to the next middleware.  At the concrete URL `/no-such-page`
with an empty route table, no entry matches and the URL is not under
`/static`, yet the `server.js` catch-all handler does not pass the request on:
it renders a page body itself. -/
theorem unmatched_url_not_passed_to_next :
    Server.findActiveRoute matchNone "/no-such-page" [] = none
    ∧ Server.strStartsWith "/no-such-page" "/static" = false
    ∧ Server.sjsCatchAll matchNone [] fetchStub "/no-such-page"
        ≠ Server.SjsOutcome.passedToNext := by
  refine ⟨rfl, rfl, fun h => ?_⟩
  have h2 : Server.SjsOutcome.rendered (Server.storeState (JVal.jobj []) Server.getGeneralData)
      = Server.SjsOutcome.passedToNext := Eq.trans (by rfl) h
  exact Server.SjsOutcome.noConfusion h2

/-- C3 amended: For every request URL that matches no route entry and
is not under the static-asset path, the match result is `none`, and the
`server.js` catch-all handler renders a 200 page itself, with empty page
data; it does not fall through to the next middleware (only `/static`-path
requests do). -/
theorem unmatched_url_renders_empty_page
    (matchPath : String → Server.SjsRoute → Option JVal) (routes : List Server.SjsRoute)
    (fetchGraphQL : String → Option JVal → Server.FetchResult) (url : String)
    (hmatch : Server.findActiveRoute matchPath url routes = none)
    (hstatic : Server.strStartsWith url "/static" = false) :
    Server.sjsCatchAll matchPath routes fetchGraphQL url
      = Server.SjsOutcome.rendered (Server.storeState (JVal.jobj []) Server.getGeneralData) := by
  simp [Server.sjsCatchAll, hmatch, hstatic]

/-- C3 witness for the amended claim, at the concrete URL `/profile`. -/
theorem unmatched_url_renders_empty_page_witness :
    Server.sjsCatchAll matchNone [] fetchStub "/profile"
      = Server.SjsOutcome.rendered (Server.storeState (JVal.jobj []) Server.getGeneralData) :=
  unmatched_url_renders_empty_page matchNone [] fetchStub "/profile" rfl rfl

/-- C4: Route matching is deterministic and respects declaration order:
for every matcher, route table and URL, if every entry before `e` fails to
match and `e` matches with parameters `m`, the lookup returns exactly `e`
with `m` — in particular, when a later entry also matches the URL, the
earlier one is selected. -/
theorem find_first_match {ρ : Type} (matchPath : String → ρ → Option JVal) (url : String)
    (before after : List ρ) (e : ρ) (m : JVal)
    (hbefore : ∀ r ∈ before, matchPath url r = none)
    (he : matchPath url e = some m) :
    Server.findActiveRoute matchPath url (before ++ e :: after) = some (e, m) := by
  induction before with
  | nil =>
    rw [List.nil_append, Server.findActiveRoute, he]
  | cons r rs ih =>
    rw [List.cons_append, Server.findActiveRoute, hbefore r (by simp)]
    exact ih (fun x hx => hbefore x (by simp [hx]))

/-- C4 witness: a table `["/a", "/b", "/b", "/c"]` matched against `/b`;
both the second and the third entry match, and the lookup returns the
second (the earlier one), with its parameters. -/
theorem find_first_match_witness :
    Server.findActiveRoute exactMatcher "/b" (["/a"] ++ "/b" :: ["/b", "/c"])
      = some ("/b", JVal.jobj []) :=
  find_first_match exactMatcher "/b" ["/a"] ["/b", "/c"] "/b" (JVal.jobj [])
    (by
      intro r hr
      rw [List.mem_singleton] at hr
      subst hr
      rfl)
    rfl

/-- C5: For every matched route that declares a GraphQL query, the
handler issues exactly one request, whose variables are `mapParams` applied
to the path parameters when the route declares a parameter mapper, and are
the raw path parameters unchanged when it declares none. -/
theorem graphql_variables_from_mapper
    (getMatchAndRoute : Bool → String → Server.MatchResult)
    (fetchGraphQL : Server.FetchReq → Server.FetchResult)
    (hasSessionUser : Bool) (url : String) (disableSsl : Bool) (host cookie : String)
    (g : Server.GraphqlSpec)
    (hg : (getMatchAndRoute hasSessionUser url).route.graphql = some g) :
    (Server.ssrHandler getMatchAndRoute fetchGraphQL hasSessionUser url
        disableSsl host cookie).requests
      = [{ baseUrl := "http" ++ (if disableSsl then "" else "s") ++ "://" ++ host,
           query := g.query,
           queryVariables := match g.mapParams with
             | some mapParams => mapParams (getMatchAndRoute hasSessionUser url).params
             | none => (getMatchAndRoute hasSessionUser url).params,
           cookie := cookie }] := by
  simp only [Server.ssrHandler, hg]
  split
  · rfl
  · split
    · rfl
    · rfl

/-- C5 witness: a route declaring a parameter mapper; the issued request
carries the mapped variables, not the raw path parameters. -/
theorem graphql_variables_from_mapper_witness :
    (Server.ssrHandler gmrMapped fetchBoom true "/note/7" false "example.org"
        "koa:sess=1").requests
      = [{ baseUrl := "https://example.org",
           query := "query getNote",
           queryVariables := JVal.jobj [("id", JVal.jstr "42")],
           cookie := "koa:sess=1" }] :=
  (graphql_variables_from_mapper gmrMapped fetchBoom true "/note/7" false "example.org"
    "koa:sess=1" gSpecMapped rfl).trans rfl

/-- C6: For every matched route whose GraphQL call succeeds, the page
data handed to the renderer is `mapResp` applied to the raw payload when the
route declares a response mapper (the rendered outcome carries only the
mapped value), and the raw payload unchanged when it declares none. -/
theorem success_pagedata_mapped
    (getMatchAndRoute : Bool → String → Server.MatchResult)
    (fetchGraphQL : Server.FetchReq → Server.FetchResult)
    (hasSessionUser : Bool) (url : String) (disableSsl : Bool) (host cookie : String)
    (g : Server.GraphqlSpec) (data : JVal)
    (hg : (getMatchAndRoute hasSessionUser url).route.graphql = some g)
    (hf : (Server.graphqlCall fetchGraphQL g (getMatchAndRoute hasSessionUser url).params
        ("http" ++ (if disableSsl then "" else "s") ++ "://" ++ host) cookie).1
      = Server.FetchResult.ok data) :
    (Server.ssrHandler getMatchAndRoute fetchGraphQL hasSessionUser url
        disableSsl host cookie).outcome
      = Server.SsrOutcome.rendered (match g.mapResp with
          | some mapResp => mapResp data
          | none => data) := by
  simp only [Server.ssrHandler, hg, hf]

/-- C6 witness: a successful fetch through a route declaring a response
mapper; the rendered page data is the mapped payload. -/
theorem success_pagedata_mapped_witness :
    (Server.ssrHandler gmrResp fetchOk true "/notes" false "example.org"
        "koa:sess=1").outcome
      = Server.SsrOutcome.rendered
          (JVal.jobj [("notes", JVal.jarr [JVal.jstr "Medor"])]) :=
  (success_pagedata_mapped gmrResp fetchOk true "/notes" false "example.org" "koa:sess=1"
    gSpecResp (JVal.jarr [JVal.jstr "Medor"]) rfl rfl).trans rfl

/-- C7: `POST /login`: when a user record with the given username exists,
then if the password verifies against the stored hash, the session's user
field is set to that stored record and the response is a redirect to the
configured landing path; and if it does not verify, the session is left
unchanged and the page is re-rendered with the submitted fields pre-filled
and an error message. -/
theorem login_checks_password
    (findUserByUsername : String → Option Server.User)
    (compare : String → String → Bool) (username password : String)
    (sessionUser : Option Server.User) (user : Server.User)
    (huser : findUserByUsername username = some user) :
    (compare password user.passwordHash = true →
      Server.loginHandler findUserByUsername compare username password sessionUser
        = { outcome := Server.AuthOutcome.redirect Server.notesPagePath,
            sessionUser := some user,
            compareCalls := [(password, user.passwordHash)] })
    ∧ (compare password user.passwordHash = false →
      Server.loginHandler findUserByUsername compare username password sessionUser
        = { outcome := Server.AuthOutcome.renderForm
              { prefillUsername := username, prefillPassword := password,
                errorMessage := "Incorrect username or password." },
            sessionUser := sessionUser,
            compareCalls := [(password, user.passwordHash)] }) := by
  constructor
  · intro hc
    simp only [Server.loginHandler, huser, hc, if_true]
  · intro hc
    simp only [Server.loginHandler, huser, hc, Bool.false_eq_true, if_false]

/-- C7 witness: with the stored user `alice`, the correct password logs
in (session set, redirect to the landing path) and a wrong password
re-renders with the error message and leaves the session unchanged. -/
theorem login_checks_password_witness :
    Server.loginHandler findUserStub compareStub "alice" "pw" none
      = { outcome := Server.AuthOutcome.redirect Server.notesPagePath,
          sessionUser := some userAlice,
          compareCalls := [("pw", "h1")] }
    ∧ Server.loginHandler findUserStub compareStub "alice" "nope" none
      = { outcome := Server.AuthOutcome.renderForm
            { prefillUsername := "alice", prefillPassword := "nope",
              errorMessage := "Incorrect username or password." },
          sessionUser := none,
          compareCalls := [("nope", "h1")] } :=
  ⟨((login_checks_password findUserStub compareStub "alice" "pw" none userAlice rfl).1
      (by decide)).trans rfl,
   ((login_checks_password findUserStub compareStub "alice" "nope" none userAlice rfl).2
      (by decide)).trans rfl⟩

/-- C8: `POST /signup`: when the username or the password is missing or
empty (both modelled as `""`), no password hash is computed and no user
record is persisted, and the response is a re-render with the submitted
fields pre-filled and an inline error message; when both are non-empty, the
password is hashed, exactly that user record is persisted, and the response
is a redirect to the landing route. -/
theorem signup_validates_and_persists (hash : String → String) (username password : String) :
    ((username = "" ∨ password = "") →
      Server.signupHandler hash username password
        = { outcome := Server.AuthOutcome.renderForm
              { prefillUsername := username, prefillPassword := password,
                errorMessage := "Please enter a username and a password." },
            hashCalls := [], created := [] })
    ∧ (username ≠ "" → password ≠ "" →
      Server.signupHandler hash username password
        = { outcome := Server.AuthOutcome.redirect Server.notesPagePath,
            hashCalls := [password],
            created := [{ username := username, passwordHash := hash password }] }) := by
  constructor
  · intro hempty
    simp only [Server.signupHandler, if_pos hempty]
  · intro hu hp
    simp only [Server.signupHandler]
    rw [if_neg (by
      intro hor
      rcases hor with h | h
      · exact hu h
      · exact hp h)]

/-- C8 witness: an empty username leads to the inline-error re-render
with no hash computed and nothing persisted; non-empty credentials lead to
the hashed record being persisted and a redirect. -/
theorem signup_validates_and_persists_witness :
    Server.signupHandler hashStub "" "pw"
      = { outcome := Server.AuthOutcome.renderForm
            { prefillUsername := "", prefillPassword := "pw",
              errorMessage := "Please enter a username and a password." },
          hashCalls := [], created := [] }
    ∧ Server.signupHandler hashStub "sven" "pw"
      = { outcome := Server.AuthOutcome.redirect Server.notesPagePath,
          hashCalls := ["pw"],
          created := [{ username := "sven", passwordHash := "hashed:pw" }] } :=
  ⟨(signup_validates_and_persists hashStub "" "pw").1 (Or.inl rfl),
   ((signup_validates_and_persists hashStub "sven" "pw").2 (by decide) (by decide)).trans rfl⟩

/-- C9: Hydration round-trip: the serialized `__PRELOADED_STATE__` blob
embedded in the rendered document — the serialization of the store state,
i.e. of the object carrying the final page data under `page` and the general
data under `general` — parses back to exactly that state object. -/
theorem preloaded_state_roundtrip (pageData general : JVal) :
    Serialization.parseJs (Server.preloadedStateBlob (Server.storeState pageData general))
      = some (Server.storeState pageData general) :=
  Serialization.parseJs_serializeJs (Server.storeState pageData general)

/-- C10: `POST /login` with a username matching no stored record: the
lookup failure short-circuits, so `bcrypt.compare` is never invoked (the
comparison trace is empty), the session is unchanged, and the response is the
re-render with exactly the same error message as a wrong-password failure —
indistinguishable from it. -/
theorem login_unknown_username
    (findUserByUsername : String → Option Server.User)
    (compare : String → String → Bool) (username password : String)
    (sessionUser : Option Server.User)
    (hmiss : findUserByUsername username = none) :
    Server.loginHandler findUserByUsername compare username password sessionUser
      = { outcome := Server.AuthOutcome.renderForm
            { prefillUsername := username, prefillPassword := password,
              errorMessage := "Incorrect username or password." },
          sessionUser := sessionUser, compareCalls := [] } := by
  simp only [Server.loginHandler, hmiss]

/-- C10 witness: the username `bob` matches no stored record; no
comparison happens and the response carries the shared error message. -/
theorem login_unknown_username_witness :
    Server.loginHandler findUserStub compareStub "bob" "pw" none
      = { outcome := Server.AuthOutcome.renderForm
            { prefillUsername := "bob", prefillPassword := "pw",
              errorMessage := "Incorrect username or password." },
          sessionUser := none, compareCalls := [] } :=
  login_unknown_username findUserStub compareStub "bob" "pw" none rfl

end JsStack
